import Mathlib

/-!
Shallow embedding of the upload-orchestration core of `src/src/App.tsx`
(Geeks S3 Api upload): the task model, the path resolver, the queue
controller, the progress aggregator, the worker-pool cursor and the
error classifier, together with theorems settling the specification
claims about them.

JavaScript numbers are embedded as rationals (`ℚ`); strings as Lean
`String`; JS falsiness of a possibly-absent string field is modelled by
the empty string.
-/

/-- Status of an upload task, from the `UploadTask` interface:
`'pending' | 'uploading' | 'completed' | 'error'`. -/
inductive UploadStatus where
  | pending
  | uploading
  | completed
  | error
deriving DecidableEq, Repr

/-- A browser `File` object as the app sees it: its `name`, its byte
`size`, and the two optional string fields the ingestion code reads
(`customPath`, attached by the drag-and-drop traversal, and
`webkitRelativePath`, set by a directory picker).  An absent field is
the empty string, which is exactly JS falsiness for these reads. -/
structure JSFile where
  name : String
  size : ℚ
  customPath : String := ""
  webkitRelativePath : String := ""
deriving DecidableEq, Repr

/-- The `UploadTask` interface of `App.tsx`: id, file, destination
path, progress (0–100), status, and the optional error message. -/
structure UploadTask where
  id : String
  file : JSFile
  path : String
  progress : ℚ
  status : UploadStatus
  error : Option String
deriving DecidableEq, Repr

/-- The path separator `'/'`. -/
def slashChar : Char := '/'

/-- JavaScript `String.prototype.split` with a single-character
separator, on the character list of the string: `"a/b".split('/')`
is `["a", "b"]` and `"".split('/')` is `[""]`. -/
def jsSplit (c : Char) : List Char → List (List Char)
  | [] => [[]]
  | x :: xs =>
    if x = c then [] :: jsSplit c xs
    else (x :: (jsSplit c xs).headI) :: (jsSplit c xs).tail

/-- JavaScript `Array.prototype.join('/')`: the segments interleaved
with `/`. -/
def jsJoinSlash : List (List Char) → List Char
  | [] => []
  | [p] => p
  | p :: ps => p ++ ['/'] ++ jsJoinSlash ps

/-- Path computation inside `handleFilesAdded` (App.tsx lines 66–76):
`let path = file.customPath || file.name;` then, when `customPath` is
falsy and `webkitRelativePath` is truthy, `split('/')` it and, when
there are several parts, `slice(1).join('/')`. -/
def taskPath (f : JSFile) : String :=
  if f.customPath ≠ "" then f.customPath
  else if f.webkitRelativePath ≠ "" then
    if (jsSplit slashChar f.webkitRelativePath.data).length > 1
    then ⟨jsJoinSlash ((jsSplit slashChar f.webkitRelativePath.data).drop 1)⟩
    else f.webkitRelativePath
  else f.name

/-- Task construction in `handleFilesAdded` (App.tsx lines 78–84).
The id is the value of `Math.random().toString(36).substring(7)` for
this file, supplied here explicitly (`rid`) since `Math.random` is an
external oracle with no uniqueness guarantee. -/
def mkTask (rid : String) (f : JSFile) : UploadTask :=
  { id := rid, file := f, path := taskPath f, progress := 0,
    status := .pending, error := none }

/-- The whole of `handleFilesAdded` (App.tsx lines 62–87): map the
incoming files to fresh pending tasks and append them to the previous
list (`setTasks((prev) => [...prev, ...newTasks])`).  `rids` is the
stream of strings produced by the successive `Math.random()` id
draws, one per file. -/
def handleFilesAdded (rids : List String) (files : List JSFile)
    (prev : List UploadTask) : List UploadTask :=
  prev ++ List.zipWith mkTask rids files

/-- A file-system entry as delivered by `webkitGetAsEntry`: either a
file or a directory with a list of child entries. -/
inductive FSEntry where
  | file (name : String)
  | dir (name : String) (children : List FSEntry)
deriving Repr

mutual
/-- The recursive traversal `getFilesFromEntry` (App.tsx lines
90–122), projected to the `customPath` strings it attaches: a file
entry yields `path + file.name`; a directory recurses into its
children with `newPath = isRoot ? path : path + entry.name + '/'`
(the root folder name is never added). -/
def getFilesFromEntry : FSEntry → String → Bool → List String
  | .file n, path, _ => [path ++ n]
  | .dir n cs, path, isRoot =>
      getFilesFromEntries cs (if isRoot then path else path ++ n ++ "/")

/-- Traversal of a directory listing: the concatenation of the results
for each child entry, each called with `isRoot = false` (App.tsx lines
105–111). -/
def getFilesFromEntries : List FSEntry → String → List String
  | [], _ => []
  | e :: es, p => getFilesFromEntry e p false ++ getFilesFromEntries es p
end

mutual
/-- Modelled from the spec (§4.2): the destination key of each leaf
file is the `/`-joined path of intermediate directory names plus the
file name, relative to the given prefix. -/
def relPaths (pre : String) : FSEntry → List String
  | .file n => [pre ++ n]
  | .dir n cs => relPathsList (pre ++ n ++ "/") cs

/-- Modelled from the spec (§4.2): relative paths of all leaf files
under a list of sibling entries. -/
def relPathsList (pre : String) : List FSEntry → List String
  | [] => []
  | e :: es => relPaths pre e ++ relPathsList pre es
end

/-- The `removeTask` operation (App.tsx lines 149–151):
`prev.filter((t) => t.id !== id)`. -/
def removeTask (id : String) (ts : List UploadTask) : List UploadTask :=
  ts.filter (fun t => t.id ≠ id)

/-- The `clearCompleted` operation (App.tsx lines 153–155):
`prev.filter((t) => t.status !== 'completed')`. -/
def clearCompleted (ts : List UploadTask) : List UploadTask :=
  ts.filter (fun t => t.status ≠ .completed)

/-- The `retryTask` operation (App.tsx lines 157–164): every task
whose id matches is reset to `pending` with `error: undefined` and
`progress: 0`; there is no check of the task's current status. -/
def retryTask (id : String) (ts : List UploadTask) : List UploadTask :=
  ts.map (fun t =>
    if t.id = id then { t with status := .pending, error := none, progress := 0 }
    else t)

/-- Whether the UI renders a remove control for a task: the main task
row shows the `X` button only when `task.status === 'pending'`
(App.tsx line 469) and the error-details row, rendered only when
`task.status === 'error'` (line 478), shows a second one (line 486). -/
def removeButtonShown (t : UploadTask) : Bool :=
  t.status = .pending ∨ t.status = .error

/-- A user click on the remove control of task `t`: possible only when
the control is rendered, in which case it runs `removeTask t.id`. -/
def removeClick (ts : List UploadTask) (t : UploadTask) : List UploadTask :=
  if removeButtonShown t then removeTask t.id ts else ts

/-- A user click on the Clear Completed button (App.tsx lines
405–407): the button carries `disabled={isUploading}`, so the click
fires `clearCompleted` only when no run is active. -/
def clearCompletedClick (isUploading : Bool) (ts : List UploadTask) :
    List UploadTask :=
  if isUploading then ts else clearCompleted ts

/-- JavaScript `Math.round` on an exact rational: round half towards
positive infinity, i.e. `⌊x + 1/2⌋`. -/
def jsRound (x : ℚ) : ℤ :=
  ⌊x + 1 / 2⌋

/-- The reducer for `totalBytes` (App.tsx line 274):
`tasks.reduce((sum, task) => sum + task.file.size, 0)`. -/
def totalBytes (ts : List UploadTask) : ℚ :=
  ts.foldl (fun sum t => sum + t.file.size) 0

/-- The reducer for `uploadedBytes` (App.tsx lines 275–279): completed
tasks contribute their full size, errored tasks contribute 0, and any
other task contributes `size * (progress / 100)`. -/
def uploadedBytes (ts : List UploadTask) : ℚ :=
  ts.foldl (fun sum t =>
    if t.status = .completed then sum + t.file.size
    else if t.status = .error then sum + 0
    else sum + t.file.size * (t.progress / 100)) 0

/-- The `globalProgress` value (App.tsx line 280):
`totalBytes === 0 ? 0 : Math.round((uploadedBytes / totalBytes) * 100)`. -/
def globalProgress (ts : List UploadTask) : ℚ :=
  if totalBytes ts = 0 then 0
  else (jsRound (uploadedBytes ts / totalBytes ts * 100) : ℚ)

/-- Credentials as stored by the configuration form. -/
structure Credentials where
  accessKeyId : String
  secretAccessKey : String
  endpoint : String
  bucket : String
deriving DecidableEq, Repr

/-- Endpoint normalisation in `startUpload` (App.tsx line 173):
`credentials.endpoint.replace(/\/$/, '')`.  The anchored regex `\/$`
matches at most once, removing exactly one trailing slash character
when one is present, so it is embedded as: drop the last character
when it is `'/'`. -/
def formatEndpoint (s : String) : String :=
  if s.data.getLast? = some slashChar then ⟨s.data.dropLast⟩ else s

/-- Configuration of the constructed store client (the fields of the
`new S3Client({...})` call the embedding tracks). -/
structure S3ClientConfig where
  region : String
  endpoint : String
  forcePathStyle : Bool
deriving DecidableEq, Repr

/-- The client construction in `startUpload` (App.tsx lines 175–184):
`region: 'auto'`, the normalised endpoint, `forcePathStyle: true`. -/
def mkClient (creds : Credentials) : S3ClientConfig :=
  { region := "auto", endpoint := formatEndpoint creds.endpoint,
    forcePathStyle := true }

/-- The snapshot of eligible tasks taken at run start (App.tsx line
186): tasks whose status is `pending` or `error`. -/
def pendingTasks (ts : List UploadTask) : List UploadTask :=
  ts.filter (fun t => t.status = .pending ∨ t.status = .error)

/-- The pool size fixed at App.tsx line 189. -/
def poolSize : Nat := 10

/-- State of the shared cursor machinery inside `startUpload` (App.tsx
lines 190–196): the shared mutable `index`, and the log of claim
events so far as `(worker, taskIndex)` pairs.  A claim event is a
fetch whose value is below the snapshot length `N`; a worker whose
fetch returns `N` or more breaks out instead. -/
structure PoolState where
  cursor : Nat
  claims : List (Nat × Nat)
deriving DecidableEq, Repr

/-- One execution of `const currentIndex = index++` by worker `w`
followed by the bound check (App.tsx lines 194–195).  JavaScript runs
to completion between awaits, so the read and increment are a single
atomic step; the fetched value is recorded as a claim exactly when it
is below `N`. -/
def stepFetch (N : Nat) (w : Nat) (s : PoolState) : PoolState :=
  { cursor := s.cursor + 1,
    claims := s.claims ++ if s.cursor < N then [(w, s.cursor)] else [] }

/-- A run of the pool over snapshot length `N` under an interleaving
`sched`: the list of worker ids in the order in which they execute
their fetch-and-increment steps, folded over the shared state. -/
def runPool (N : Nat) (sched : List Nat) : PoolState :=
  sched.foldl (fun s w => stepFetch N w s) ⟨0, []⟩

/-- The error object the worker catches (App.tsx lines 231–246):
its `name`, its `message` (the empty string models an absent or empty
message, both falsy) and the optional `$metadata.httpStatusCode`. -/
structure UploadError where
  name : String
  message : String
  httpStatusCode : Option Nat
deriving DecidableEq, Repr

/-- The CORS/network remediation message (App.tsx line 243). -/
def corsMsg : String :=
  "Error de Red: Verifica las políticas CORS en la configuración de R2."

/-- The invalid-credentials message (App.tsx line 245). -/
def credsMsg : String :=
  "Acceso Denegado (403): Verifica tus credenciales (Access Key y Secret)."

/-- The network-failure test of App.tsx line 242:
`error.name === 'NetworkingError' || error.message.includes('fetch')`. -/
def isNetworkError (e : UploadError) : Prop :=
  e.name = "NetworkingError" ∨ "fetch".data.IsInfix e.message.data

instance (e : UploadError) : Decidable (isNetworkError e) := by
  unfold isNetworkError; infer_instance

/-- The error classification of App.tsx lines 241–246: start from
`error.message || 'Error desconocido'`, replace it by the CORS message
on a network failure, else by the credentials message on HTTP 403. -/
def classifyError (e : UploadError) : String :=
  let detailedError := if e.message = "" then "Error desconocido" else e.message
  if isNetworkError e then corsMsg
  else if e.httpStatusCode = some 403 then credsMsg
  else detailedError

/-- The task update in the worker's catch branch (App.tsx lines
248–254): the task with the claimed id moves to `error` status with
the classified message recorded and progress reset to 0. -/
def failTask (tid : String) (msg : String) (ts : List UploadTask) :
    List UploadTask :=
  ts.map (fun t =>
    if t.id = tid then { t with status := .error, error := some msg, progress := 0 }
    else t)

/-- The task update after `upload.done()` succeeds (App.tsx lines
226–230): status `completed`, progress forced to 100. -/
def completeTask (tid : String) (ts : List UploadTask) : List UploadTask :=
  ts.map (fun t =>
    if t.id = tid then { t with status := .completed, progress := 100 }
    else t)

/-- Modelled from the spec (§4.4): the per-task contribution to
`uploadedBytes` — full size if `completed`, 0 if `error`,
`size × progressPercent / 100` otherwise. -/
def specContribution (t : UploadTask) : ℚ :=
  if t.status = .completed then t.file.size
  else if t.status = .error then 0
  else t.file.size * (t.progress / 100)

/-- Whether the UI renders the retry control for a task: it appears
only inside the error-details row, which is rendered only when
`task.status === 'error'` (App.tsx lines 478–484). -/
def retryButtonShown (t : UploadTask) : Bool :=
  t.status = .error

/-! Helper lemmas about the worker-pool cursor. -/

/-- Folding the fetch step from an arbitrary state: the cursor
advances by one per fetch, and the claimed indices extend the old ones
by the consecutive range of fetched values that fell below `N`. -/
theorem runPool_from (N : Nat) (sched : List Nat) : ∀ s : PoolState,
    (sched.foldl (fun s w => stepFetch N w s) s).cursor = s.cursor + sched.length ∧
    (sched.foldl (fun s w => stepFetch N w s) s).claims.map Prod.snd
      = s.claims.map Prod.snd ++ (List.range' s.cursor sched.length).filter (· < N) := by
  induction sched with
  | nil => intro s; simp
  | cons w ws ih =>
    intro s
    have h := ih (stepFetch N w s)
    constructor
    · rw [List.foldl_cons, h.1]
      simp [stepFetch]; omega
    · rw [List.foldl_cons, h.2]
      simp [stepFetch, List.range'_succ]
      by_cases hc : s.cursor < N <;> simp [hc]

/-- The values below `N` among `L` consecutive fetches starting at `c`
are the consecutive range from `c` of length `min L (N - c)`. -/
theorem range'_filter_lt (N : Nat) : ∀ L c, (List.range' c L).filter (· < N) =
    List.range' c (min L (N - c)) := by
  intro L
  induction L with
  | zero => simp
  | succ L ih =>
    intro c
    rw [List.range'_succ, List.filter_cons]
    by_cases hc : c < N
    · have h1 : min (L + 1) (N - c) = min L (N - (c + 1)) + 1 := by omega
      simp [hc, h1, List.range'_succ, ih]
    · have h1 : min (L + 1) (N - c) = 0 := by omega
      have h2 : min L (N - (c + 1)) = 0 := by omega
      simp [hc, h1, ih, h2]

/-- In any interleaving, the claimed task indices are exactly
`0, 1, …, min (fetches, N) - 1` in order. -/
theorem runPool_claims (N : Nat) (sched : List Nat) :
    (runPool N sched).claims.map Prod.snd = List.range (min sched.length N) := by
  have h := runPool_from N sched ⟨0, []⟩
  simp only [runPool] at h ⊢
  rw [h.2, range'_filter_lt, List.range_eq_range']
  simp

/-! Helper lemmas about the path resolver. -/

/-- Below the root, the traversal computes exactly the spec's relative
paths: intermediate directory names joined with `/`, then the file
name. -/
theorem getFilesFromEntry_nonroot (e : FSEntry) :
    ∀ p, getFilesFromEntry e p false = relPaths p e := by
  induction e using FSEntry.rec
    (motive_2 := fun cs => ∀ p, getFilesFromEntries cs p = relPathsList p cs) with
  | file n => intro p; simp [getFilesFromEntry, relPaths]
  | dir n cs ih => intro p; simp [getFilesFromEntry, relPaths, ih]
  | nil => simp [getFilesFromEntries, relPathsList]
  | cons e es ih1 ih2 => simp [getFilesFromEntries, relPathsList, ih1, ih2]

/-- Directory-listing traversal agrees with the spec's relative paths
of the sibling entries. -/
theorem getFilesFromEntries_eq (cs : List FSEntry) (p : String) :
    getFilesFromEntries cs p = relPathsList p cs := by
  induction cs with
  | nil => simp [getFilesFromEntries, relPathsList]
  | cons e es ih =>
    simp [getFilesFromEntries, relPathsList, ih, getFilesFromEntry_nonroot]

/-- A JavaScript split never returns an empty array. -/
theorem jsSplit_ne_nil (c : Char) (l : List Char) : jsSplit c l ≠ [] := by
  cases l with
  | nil => simp [jsSplit]
  | cons x xs => simp only [jsSplit]; split <;> simp

/-- Joining with `/` undoes splitting on `/`. -/
theorem jsJoin_jsSplit (l : List Char) :
    jsJoinSlash (jsSplit slashChar l) = l := by
  induction l with
  | nil => rfl
  | cons x xs ih =>
    simp only [jsSplit]
    rcases h : jsSplit slashChar xs with _ | ⟨r, rs⟩
    · exact absurd h (jsSplit_ne_nil _ _)
    · rw [h] at ih
      by_cases hx : x = slashChar
      · rw [if_pos hx, hx]
        show [] ++ [slashChar] ++ jsJoinSlash (r :: rs) = slashChar :: xs
        rw [ih]
        rfl
      · rw [if_neg hx]
        simp only [List.headI_cons, List.tail_cons]
        cases rs with
        | nil =>
          show x :: r = x :: xs
          simp only [jsJoinSlash] at ih
          rw [ih]
        | cons r2 rs2 =>
          show (x :: r) ++ [slashChar] ++ jsJoinSlash (r2 :: rs2) = x :: xs
          rw [← ih]
          rfl

/-- Splitting on `/` at the first separator: a separator-free head
becomes the first segment, the tail is split recursively. -/
theorem jsSplit_sep_append (a b : List Char) (h : slashChar ∉ a) :
    jsSplit slashChar (a ++ slashChar :: b) = a :: jsSplit slashChar b := by
  induction a with
  | nil =>
    simp [jsSplit]
  | cons x a2 ih =>
    have hx : x ≠ slashChar := by
      intro he
      exact h (he ▸ List.mem_cons_self x a2)
    have h2 : slashChar ∉ a2 := fun hm => h (List.mem_cons_of_mem _ hm)
    rw [List.cons_append]
    simp only [jsSplit, if_neg hx]
    rw [ih h2]
    simp

/-- C1: during a single run started by `startUpload` over a snapshot
of `N` eligible tasks, in every interleaving of the pool's workers
(a schedule of at least `N` fetch-and-increment steps by workers with
ids below the pool size 10), exactly `N` claim events occur, their
claimed task indices are exactly `0, …, N-1`, and no task index is
ever claimed by two claim events — in particular never by two workers
concurrently. -/
theorem claim_C1_cursor_distinct (ts : List UploadTask) (sched : List Nat)
    (_hw : ∀ w ∈ sched, w < poolSize)
    (hlen : (pendingTasks ts).length ≤ sched.length) :
    (runPool (pendingTasks ts).length sched).claims.length
        = (pendingTasks ts).length ∧
    (runPool (pendingTasks ts).length sched).claims.map Prod.snd
        = List.range (pendingTasks ts).length ∧
    ((runPool (pendingTasks ts).length sched).claims.map Prod.snd).Nodup ∧
    ∀ a ∈ (runPool (pendingTasks ts).length sched).claims,
      ∀ b ∈ (runPool (pendingTasks ts).length sched).claims,
        a.2 = b.2 → a = b := by
  have hmap := runPool_claims (pendingTasks ts).length sched
  have hmin : min sched.length (pendingTasks ts).length
      = (pendingTasks ts).length := by omega
  rw [hmin] at hmap
  have hnodup :
      ((runPool (pendingTasks ts).length sched).claims.map Prod.snd).Nodup := by
    rw [hmap]; exact List.nodup_range _
  refine ⟨?_, hmap, hnodup, ?_⟩
  · have h := congrArg List.length hmap
    simpa using h
  · exact fun a ha b hb hab => List.inj_on_of_nodup_map hnodup ha hb hab

/-- Witness for C1: two eligible tasks (one pending, one errored), a
schedule of three fetches by workers 0, 1, 2 of the pool: the claimed
indices are exactly `[0, 1]`. -/
theorem claim_C1_cursor_distinct_witness :
    (runPool (pendingTasks
        [{ id := "a", file := { name := "a.bin", size := 1 }, path := "a.bin",
           progress := 0, status := .pending, error := none },
         { id := "b", file := { name := "b.bin", size := 2 }, path := "b.bin",
           progress := 0, status := .error, error := some "boom" }]).length
      [0, 1, 2]).claims.map Prod.snd
      = List.range (pendingTasks
        [{ id := "a", file := { name := "a.bin", size := 1 }, path := "a.bin",
           progress := 0, status := .pending, error := none },
         { id := "b", file := { name := "b.bin", size := 2 }, path := "b.bin",
           progress := 0, status := .error, error := some "boom" }]).length :=
  (claim_C1_cursor_distinct _ [0, 1, 2] (by decide) (by decide)).2.1

/-- C3: destination keys — a direct file pick (no `customPath`, no
`webkitRelativePath`) keys the file under its own name; a
drag-and-drop traversal keys each file under its `customPath`; the
traversal of a dropped directory yields exactly the `/`-joined
relative paths of its contents with the top-level directory's name
excluded; a dropped bare file yields just its name; and the spec's
`Project` example yields `src/a.ts` and `readme.md` both for
drag-and-drop and for folder selection via `webkitRelativePath`. -/
theorem claim_C3_path_resolution :
    (∀ f : JSFile, f.customPath = "" → f.webkitRelativePath = "" →
      taskPath f = f.name) ∧
    (∀ f : JSFile, f.customPath ≠ "" → taskPath f = f.customPath) ∧
    (∀ (n p : String) (cs : List FSEntry),
      getFilesFromEntry (.dir n cs) p true = relPathsList p cs) ∧
    (∀ n : String, getFilesFromEntry (.file n) "" true = [n]) ∧
    (∀ (f : JSFile) (root rest : String), f.customPath = "" →
      slashChar ∉ root.data → f.webkitRelativePath = root ++ "/" ++ rest →
      taskPath f = rest) ∧
    (getFilesFromEntry
        (.dir "Project" [.dir "src" [.file "a.ts"], .file "readme.md"]) "" true
      = ["src/a.ts", "readme.md"]) ∧
    (taskPath
        { name := "a.ts", size := 1, webkitRelativePath := "Project/src/a.ts" }
      = "src/a.ts") ∧
    (taskPath
        { name := "readme.md", size := 1,
          webkitRelativePath := "Project/readme.md" }
      = "readme.md") := by
  refine ⟨?_, ?_, ?_, ?_, ?_, ?_, ?_, ?_⟩
  · intro f h1 h2; simp [taskPath, h1, h2]
  · intro f h; simp [taskPath, h]
  · intro n p cs; simp [getFilesFromEntry, getFilesFromEntries_eq]
  · intro n; simp [getFilesFromEntry]
  · intro f root rest hcp hroot hwrp
    have hdata : f.webkitRelativePath.data = root.data ++ slashChar :: rest.data := by
      rw [hwrp]
      show (root.data ++ [slashChar]) ++ rest.data = root.data ++ slashChar :: rest.data
      rw [List.append_assoc]
      rfl
    have hne : f.webkitRelativePath ≠ "" := by
      intro he
      rw [he] at hdata
      exact absurd hdata.symm (by simp)
    have hsplit : jsSplit slashChar f.webkitRelativePath.data
        = root.data :: jsSplit slashChar rest.data := by
      rw [hdata, jsSplit_sep_append _ _ hroot]
    have hlen : (jsSplit slashChar f.webkitRelativePath.data).length > 1 := by
      rw [hsplit]
      rcases hji : jsSplit slashChar rest.data with _ | ⟨r, rs⟩
      · exact absurd hji (jsSplit_ne_nil _ _)
      · simp
    rw [taskPath, if_neg (by simp [hcp]), if_pos hne, if_pos hlen, hsplit]
    show String.mk (jsJoinSlash (jsSplit slashChar rest.data)) = rest
    rw [jsJoin_jsSplit]
  · decide
  · decide
  · decide

/-- Witness for C3: the spec's direct-pick example `report.pdf` keys
under its own name. -/
theorem claim_C3_path_resolution_witness :
    taskPath { name := "report.pdf", size := 1 } = "report.pdf" :=
  claim_C3_path_resolution.1 { name := "report.pdf", size := 1 } rfl rfl

/-! Helper lemmas about the progress aggregator. -/

/-- A left fold that adds `f` of each element equals the starting
value plus the sum of the mapped list. -/
theorem foldl_add_sum {α : Type} (f : α → ℚ) :
    ∀ (l : List α) (a : ℚ), l.foldl (fun s x => s + f x) a = a + (l.map f).sum := by
  intro l
  induction l with
  | nil => intro a; simp
  | cons x xs ih => intro a; simp [ih, add_assoc]

/-- The code's `totalBytes` reducer computes the sum of all tasks'
file sizes. -/
theorem totalBytes_eq_sum (ts : List UploadTask) :
    totalBytes ts = (ts.map (fun t => t.file.size)).sum := by
  have h := foldl_add_sum (fun t : UploadTask => t.file.size) ts 0
  simpa [totalBytes] using h

/-- The code's `uploadedBytes` reducer computes the sum of the spec's
per-task contributions. -/
theorem uploadedBytes_eq_sum (ts : List UploadTask) :
    uploadedBytes ts = (ts.map specContribution).sum := by
  have hext : uploadedBytes ts = ts.foldl (fun s t => s + specContribution t) 0 := by
    unfold uploadedBytes
    apply List.foldl_ext
    intro a t _
    unfold specContribution
    by_cases h1 : t.status = .completed
    · simp [h1]
    · by_cases h2 : t.status = .error <;> simp [h1, h2]
  rw [hext]
  have h := foldl_add_sum specContribution ts 0
  simpa using h

/-- C2: the aggregate progress is `round(uploadedBytes / totalBytes *
100)` where `totalBytes` is the sum of all tasks' file sizes and
`uploadedBytes` sums the spec's per-task contribution (full size when
completed, 0 in error, `size × progress / 100` otherwise), and it is
0 when `totalBytes` is 0. -/
theorem claim_C2_global_progress (ts : List UploadTask) :
    (totalBytes ts = (ts.map (fun t => t.file.size)).sum) ∧
    (uploadedBytes ts = (ts.map specContribution).sum) ∧
    ((ts.map (fun t => t.file.size)).sum = 0 → globalProgress ts = 0) ∧
    ((ts.map (fun t => t.file.size)).sum ≠ 0 →
      globalProgress ts
        = jsRound ((ts.map specContribution).sum
            / (ts.map (fun t => t.file.size)).sum * 100)) := by
  refine ⟨totalBytes_eq_sum ts, uploadedBytes_eq_sum ts, ?_, ?_⟩
  · intro h
    rw [globalProgress, if_pos (by rw [totalBytes_eq_sum]; exact h)]
  · intro h
    rw [globalProgress, if_neg (by rw [totalBytes_eq_sum]; exact h),
      totalBytes_eq_sum, uploadedBytes_eq_sum]

/-- Witness for C2: a single half-uploaded 8-byte task yields global
progress `round(4 / 8 * 100) = 50`. -/
theorem claim_C2_global_progress_witness :
    globalProgress
        [{ id := "a", file := { name := "a.bin", size := 8 }, path := "a.bin",
           progress := 50, status := .uploading, error := none }]
      = jsRound ((List.map specContribution
            [{ id := "a", file := { name := "a.bin", size := 8 }, path := "a.bin",
               progress := 50, status := .uploading, error := none }]).sum
          / (List.map (fun t : UploadTask => t.file.size)
            [{ id := "a", file := { name := "a.bin", size := 8 }, path := "a.bin",
               progress := 50, status := .uploading, error := none }]).sum * 100) :=
  (claim_C2_global_progress _).2.2.2 (by norm_num)

/-- Counterexample to C8 as stated: in the empty task list every task
vacuously has status `completed`, yet `totalBytes` is 0 and
`globalProgress` is 0, not 100. -/
theorem claim_C8_counterexample :
    (∀ t ∈ ([] : List UploadTask), t.status = .completed) ∧
    globalProgress ([] : List UploadTask) ≠ 100 := by
  constructor
  · intro t ht; cases ht
  · have h : totalBytes ([] : List UploadTask) = 0 := rfl
    rw [globalProgress, if_pos h]; norm_num

/-- C8 amended: for every task list with nonzero total byte size in
which every task has status `completed`, `globalProgress` equals
100. -/
theorem claim_C8_all_completed (ts : List UploadTask)
    (h0 : totalBytes ts ≠ 0) (hc : ∀ t ∈ ts, t.status = .completed) :
    globalProgress ts = 100 := by
  have hsum : uploadedBytes ts = totalBytes ts := by
    rw [uploadedBytes_eq_sum, totalBytes_eq_sum]
    congr 1
    apply List.map_congr_left
    intro t ht
    simp [specContribution, hc t ht]
  rw [globalProgress, if_neg h0, hsum, div_self h0, one_mul]
  have hf : jsRound 100 = 100 := by
    rw [jsRound, Int.floor_eq_iff]
    constructor <;> norm_num
  rw [hf]
  norm_num

/-- Witness for C8: one completed 4-byte task has global progress
100. -/
theorem claim_C8_all_completed_witness :
    globalProgress
        [{ id := "a", file := { name := "a.bin", size := 4 }, path := "a.bin",
           progress := 100, status := .completed, error := none }]
      = 100 :=
  claim_C8_all_completed _ (by norm_num [totalBytes]) (by simp)

/-- C10: `startUpload` builds the store client with the fixed region
`auto` and `forcePathStyle: true` for every credential configuration,
over the endpoint normalised by stripping exactly one trailing `/`
when one is present (everything else, including further trailing
slashes, preserved) and left unchanged otherwise. -/
theorem claim_C10_endpoint_client (creds : Credentials) :
    (mkClient creds).region = "auto" ∧
    (mkClient creds).forcePathStyle = true ∧
    (mkClient creds).endpoint = formatEndpoint creds.endpoint ∧
    (∀ t : String, creds.endpoint = t ++ "/" → formatEndpoint creds.endpoint = t) ∧
    (creds.endpoint.data.getLast? ≠ some slashChar →
      formatEndpoint creds.endpoint = creds.endpoint) := by
  refine ⟨rfl, rfl, rfl, ?_, ?_⟩
  · intro t ht
    have hdata : creds.endpoint.data = t.data ++ [slashChar] := by
      rw [ht]; rfl
    have h1 : creds.endpoint.data.getLast? = some slashChar := by
      rw [hdata, List.getLast?_concat]
    rw [formatEndpoint, if_pos h1, hdata, List.dropLast_concat]
  · intro h
    rw [formatEndpoint, if_neg h]

/-- Witness for C10: an endpoint ending in two slashes loses exactly
one of them. -/
theorem claim_C10_endpoint_client_witness :
    formatEndpoint "https://acct.r2.cloudflarestorage.com//"
      = "https://acct.r2.cloudflarestorage.com/" :=
  (claim_C10_endpoint_client
      { accessKeyId := "AK", secretAccessKey := "SK",
        endpoint := "https://acct.r2.cloudflarestorage.com//",
        bucket := "b" }).2.2.2.1
    "https://acct.r2.cloudflarestorage.com/" rfl

/-- Counterexample to C5 as stated: `retryTask` has no status guard,
so retrying a `completed` task changes the list — the task is reset to
`pending` with progress 0. -/
theorem claim_C5_counterexample :
    (UploadStatus.completed ≠ UploadStatus.error) ∧
    retryTask "a"
        [{ id := "a", file := { name := "a.bin", size := 4 }, path := "a.bin",
           progress := 100, status := .completed, error := none }]
      ≠ [{ id := "a", file := { name := "a.bin", size := 4 }, path := "a.bin",
           progress := 100, status := .completed, error := none }] := by
  constructor
  · decide
  · intro h
    have h2 := congrArg (List.map (fun t => t.status)) h
    simp [retryTask] at h2

/-- C5 amended: `retryTask` resets every task whose id matches to
`pending` with progress 0 and the error cleared, regardless of its
current status, and leaves every other task unchanged; the
error-status restriction lives only in the UI, whose retry control is
rendered solely for `error` tasks. -/
theorem claim_C5_retry_unguarded (id : String) (ts : List UploadTask) :
    ((retryTask id ts).length = ts.length) ∧
    (∀ i : Nat, (retryTask id ts)[i]? = (ts[i]?).map (fun t =>
      if t.id = id
      then { t with status := .pending, error := none, progress := 0 }
      else t)) ∧
    (∀ t : UploadTask, retryButtonShown t = true → t.status = .error) := by
  refine ⟨?_, ?_, ?_⟩
  · simp [retryTask]
  · intro i; simp [retryTask]
  · intro t ht; simpa [retryButtonShown] using ht

/-- Witness for C5 amended: retrying the completed task of the
counterexample resets it to a pending task with progress 0. -/
theorem claim_C5_retry_unguarded_witness :
    (retryTask "a"
        [{ id := "a", file := { name := "a.bin", size := 4 }, path := "a.bin",
           progress := 100, status := .completed, error := none }])[0]?
      = some { id := "a", file := { name := "a.bin", size := 4 }, path := "a.bin",
               progress := 0, status := .pending, error := none } := by
  have h := (claim_C5_retry_unguarded "a"
      [{ id := "a", file := { name := "a.bin", size := 4 }, path := "a.bin",
         progress := 100, status := .completed, error := none }]).2.1 0
  simpa using h

/-- C6: removal of an `uploading` task is rejected: the UI renders a
remove control only for `pending` and `error` tasks, never for an
`uploading` one, so the guarded removal click is a no-op and the task
remains in the list. -/
theorem claim_C6_remove_guard (ts : List UploadTask) (t : UploadTask)
    (hmem : t ∈ ts) (hst : t.status = .uploading) :
    removeButtonShown t = false ∧ removeClick ts t = ts ∧
    t ∈ removeClick ts t := by
  have hbtn : removeButtonShown t = false := by
    simp [removeButtonShown, hst]
  have hclick : removeClick ts t = ts := by
    simp [removeClick, hbtn]
  exact ⟨hbtn, hclick, hclick.symm ▸ hmem⟩

/-- Witness for C6: a guarded removal of an uploading task leaves the
one-task list unchanged. -/
theorem claim_C6_remove_guard_witness :
    removeClick
        [{ id := "u", file := { name := "u.bin", size := 4 }, path := "u.bin",
           progress := 10, status := .uploading, error := none }]
        { id := "u", file := { name := "u.bin", size := 4 }, path := "u.bin",
          progress := 10, status := .uploading, error := none }
      = [{ id := "u", file := { name := "u.bin", size := 4 }, path := "u.bin",
           progress := 10, status := .uploading, error := none }] :=
  (claim_C6_remove_guard _ _ (by simp) rfl).2.1

/-- C7: clicking Clear Completed while a run is active is a no-op (the
button is disabled); with no run active it removes exactly the
`completed` tasks — membership, order and multiplicity of all other
tasks are preserved. -/
theorem claim_C7_clear_completed (ts : List UploadTask) :
    clearCompletedClick true ts = ts ∧
    clearCompletedClick false ts = clearCompleted ts ∧
    (clearCompleted ts).Sublist ts ∧
    (∀ t : UploadTask, t ∈ clearCompleted ts ↔ t ∈ ts ∧ t.status ≠ .completed) ∧
    (∀ t : UploadTask, t.status ≠ .completed →
      (clearCompleted ts).count t = ts.count t) := by
  refine ⟨rfl, rfl, List.filter_sublist ts, ?_, ?_⟩
  · intro t
    simp [clearCompleted, List.mem_filter]
  · intro t ht
    rw [clearCompleted]
    exact List.count_filter (by simpa using ht)

/-- Witness for C7: with no run active, clearing keeps the pending
task of a two-task list with the same multiplicity. -/
theorem claim_C7_clear_completed_witness :
    (clearCompleted
        [{ id := "c", file := { name := "c.bin", size := 4 }, path := "c.bin",
           progress := 100, status := .completed, error := none },
         { id := "p", file := { name := "p.bin", size := 2 }, path := "p.bin",
           progress := 0, status := .pending, error := none }]).count
        { id := "p", file := { name := "p.bin", size := 2 }, path := "p.bin",
          progress := 0, status := .pending, error := none }
      = (List.count
          ({ id := "p", file := { name := "p.bin", size := 2 }, path := "p.bin",
             progress := 0, status := .pending, error := none } : UploadTask)
          [{ id := "c", file := { name := "c.bin", size := 4 }, path := "c.bin",
             progress := 100, status := .completed, error := none },
           { id := "p", file := { name := "p.bin", size := 2 }, path := "p.bin",
             progress := 0, status := .pending, error := none }]) :=
  (claim_C7_clear_completed _).2.2.2.2 _ (by decide)

/-- Counterexample to C4 as stated: an HTTP 403 response whose
message contains `fetch` is classified as a CORS/network failure, not
with the credentials-invalid message. -/
theorem claim_C4_counterexample :
    ({ name := "S3Error", message := "TypeError: fetch failed",
       httpStatusCode := some 403 : UploadError }.httpStatusCode = some 403) ∧
    classifyError
        { name := "S3Error", message := "TypeError: fetch failed",
          httpStatusCode := some 403 }
      = corsMsg ∧
    corsMsg ≠ credsMsg := by
  refine ⟨rfl, ?_, by decide⟩
  have hnet : isNetworkError
      { name := "S3Error", message := "TypeError: fetch failed",
        httpStatusCode := some 403 } := by
    right; decide
  simp [classifyError, hnet]

/-- C4 amended: failures are classified in order — network failures
(name `NetworkingError` or message containing `fetch`) get the CORS
remediation message even on HTTP 403; otherwise HTTP 403 gets the
credentials message; every other failure surfaces the raw provider
message, with the generic `Error desconocido` fallback when that
message is empty — and the failing task is recorded with status
`error`, the classified message, and progress 0, all other tasks
untouched. -/
theorem claim_C4_error_classification (e : UploadError) (ts : List UploadTask)
    (tid : String) :
    (isNetworkError e → classifyError e = corsMsg) ∧
    (¬isNetworkError e → e.httpStatusCode = some 403 →
      classifyError e = credsMsg) ∧
    (¬isNetworkError e → e.httpStatusCode ≠ some 403 → e.message ≠ "" →
      classifyError e = e.message) ∧
    (¬isNetworkError e → e.httpStatusCode ≠ some 403 → e.message = "" →
      classifyError e = "Error desconocido") ∧
    (∀ i : Nat, (failTask tid (classifyError e) ts)[i]? = (ts[i]?).map (fun t =>
      if t.id = tid
      then { t with status := .error, error := some (classifyError e),
                    progress := 0 }
      else t)) := by
  refine ⟨?_, ?_, ?_, ?_, ?_⟩
  · intro h; simp [classifyError, h]
  · intro h1 h2; simp [classifyError, h1, h2]
  · intro h1 h2 h3; simp [classifyError, h1, h2, h3]
  · intro h1 h2 h3; simp [classifyError, h1, h2, h3]
  · intro i; simp [failTask]

/-- Witness for C4 amended: a plain provider failure (HTTP 500, no
network signature) surfaces its raw message `boom`. -/
theorem claim_C4_error_classification_witness :
    classifyError
        { name := "InternalError", message := "boom",
          httpStatusCode := some 500 }
      = "boom" :=
  (claim_C4_error_classification
      { name := "InternalError", message := "boom", httpStatusCode := some 500 }
      [] "x").2.2.1 (by decide) (by decide) (by decide)

/-- C9: the id draw `Math.random().toString(36).substring(7)` can
repeat — two draws of 0.5 both produce the empty suffix — and
`handleFilesAdded` performs no freshness check, so with a repeated
draw the two enqueued tasks share one id and the ids are not pairwise
distinct. -/
theorem claim_C9_random_ids_collide :
    ((handleFilesAdded ["", ""]
        [{ name := "a.bin", size := 1 }, { name := "b.bin", size := 2 }]
        []).map (fun t => t.id) = ["", ""]) ∧
    ¬ ((handleFilesAdded ["", ""]
        [{ name := "a.bin", size := 1 }, { name := "b.bin", size := 2 }]
        []).map (fun t => t.id)).Nodup := by
  have h : (handleFilesAdded ["", ""]
      [{ name := "a.bin", size := 1 }, { name := "b.bin", size := 2 }]
      []).map (fun t => t.id) = ["", ""] := rfl
  refine ⟨h, ?_⟩
  rw [h]
  decide
